import Mathlib

/-!
# Verification of the bark frontend submission/streaming/reconciliation core

Shallow embedding of the client-side job pipeline:
* `validate` / `Payload` — request validation (`frontend/main.js`, `validate`);
* `splitNN`, `extractPayload`, `parseSseChunk` — the SSE stream decoder
  (`frontend/src/api.ts`, `parseSseChunk`);
* `Registry` with `upsertJob`, `updateJobProgress`, `toJobStatus` — the
  in-memory job registry of `frontend/main.js` (`jobs : Map<string, JobState>`);
* `consumeStream`, `createSynthesisJob` — the streaming read loop and response
  dispatch of `frontend/src/api.ts` with the `onEvent` sink of `handlePrompt`.

JavaScript strings are modelled as `List Char`; JS numbers that the code
compares against rational bounds are modelled as `ℚ`; integer-valued counters
(progress, timestamps) as `Int`/`Nat`.  `JSON.parse` is a platform builtin and
is passed around as a parameter `jp : List Char → Option JsValue`; `none`
models a payload on which `JSON.parse` throws.  `TextDecoder` with
`stream:true` is modelled by its defining property: a partition of the byte
stream becomes a partition of the decoded character stream, so chunk inputs
are `List (List Char)`.
-/

/-- Job status union from `frontend/src/types.ts` (`SynthesisResponse['status']`). -/
inductive JobStatus where
  | planned
  | queued
  | running
  | completed
  | failed
deriving DecidableEq, Repr

/-- `SynthesisPlan` from `frontend/src/types.ts` (required fields; the
loosely-typed optional `video_overrides` / `routing_priorities` fields are not
consulted by any code under verification and are omitted). -/
structure SynthesisPlan where
  prompt_length : Nat
  modalities : List String
  render_video : Bool
  dry_run : Bool
deriving DecidableEq, Repr

/-- `SynthesisResponse` from `frontend/src/types.ts`; `artifacts` is the
`Record<string, string>` modelled as an association list. -/
structure SynthesisResponse where
  job_id : String
  status : JobStatus
  plan : SynthesisPlan
  artifacts : List (String × String)
deriving DecidableEq, Repr

/-- `JobState` from `frontend/src/types.ts`. -/
structure JobState where
  id : String
  status : JobStatus
  plan : SynthesisPlan
  artifacts : List (String × String)
  progress : Int
  createdAt : Nat
  updatedAt : Nat
  prompt : String
deriving DecidableEq, Repr

/-! ## RequestValidator (`frontend/main.js`, `buildPayload` / `validate`) -/

/-- The record returned by `buildPayload` in `frontend/main.js`, restricted to
the fields `validate` and `handlePrompt` read.  `text` is already trimmed (the
code trims on read).  `resolution` is `value.split('x').map(Number)`: each
entry is `none` when `Number` produced `NaN` (unparseable component). -/
structure Payload where
  text : String
  resolution : List (Option Int)
  fps : ℚ
  textTemp : ℚ
  waveformTemp : ℚ
deriving DecidableEq, Repr

/-- `validate` from `frontend/main.js`: pushes one message per failed rule, in
source order.  Note the source checks only prompt, the two temperatures and
fps — `resolution` is never examined. -/
def validate (p : Payload) : List String :=
  let e0 : List String := []
  let e1 := if p.text = "" then e0 ++ ["Prompt cannot be empty."] else e0
  let e2 := if p.textTemp < 0 ∨ p.textTemp > 1.5 then
    e1 ++ ["Text temperature must be 0-1.5."] else e1
  let e3 := if p.waveformTemp < 0 ∨ p.waveformTemp > 1.5 then
    e2 ++ ["Waveform temperature must be 0-1.5."] else e2
  if p.fps ≤ 0 then e3 ++ ["FPS must be greater than zero."] else e3

/-- The spec-side rule "resolution must parse into two positive integers"
(spec §4.1), stated over the `split('x').map(Number)` result. -/
def resolutionParsesTwoPos (r : List (Option Int)) : Bool :=
  match r with
  | [some w, some h] => decide (0 < w) && decide (0 < h)
  | _ => false

/-! ## JobRegistry (`frontend/main.js`, `jobs : Map<string, JobState>`) -/

/-- The registry: `jobs` is a JS `Map<string, JobState>`; modelled as an
insertion-ordered association list, `Map.prototype.set` semantics below. -/
abbrev Registry := List (String × JobState)

/-- `jobs.get(id)` — first (only) entry with the key. -/
def Registry.getJob (r : Registry) (id : String) : Option JobState :=
  (List.find? (fun p => decide (p.1 = id)) r).map Prod.snd

/-- `jobs.has(id)`. -/
def Registry.hasJob (r : Registry) (id : String) : Bool :=
  (Registry.getJob r id).isSome

/-- `jobs.set(id, j)` — JS `Map.set`: replace in place when the key exists
(keeping insertion order), append otherwise. -/
def Registry.setJob (r : Registry) (id : String) (j : JobState) : Registry :=
  if Registry.hasJob r id then
    List.map (fun p => if p.1 = id then (id, j) else p) r
  else
    r ++ [(id, j)]

/-- `upsertJob` from `frontend/main.js`: `jobs.set(job.id, job)` (the
`renderJobs` call is pure display and is not modelled). -/
def upsertJob (r : Registry) (job : JobState) : Registry :=
  Registry.setJob r job.id job

/-- `updateJobProgress(id, progress, status?)` from `frontend/main.js`:
```
const current = jobs.get(id);
if (!current) return;
current.progress = Math.min(progress, 100);
current.updatedAt = Date.now();
if (status) current.status = status;
upsertJob(current);
```
`now` stands for `Date.now()`. -/
def updateJobProgress (now : Nat) (r : Registry) (id : String) (progress : Int)
    (status : Option JobStatus) : Registry :=
  match Registry.getJob r id with
  | none => r
  | some current =>
    let c1 : JobState := { current with progress := min progress 100, updatedAt := now }
    let c2 : JobState :=
      match status with
      | some s => { c1 with status := s }
      | none => c1
    upsertJob r c2

/-- `toJobStatus(data, fallbackId, prompt)` from `frontend/main.js`; `now`
stands for the two `Date.now()` calls. -/
def toJobStatus (data : Option SynthesisResponse) (fallbackId : String)
    (prompt : String) (now : Nat) : JobState :=
  let base : SynthesisResponse :=
    match data with
    | some d => d
    | none =>
      { job_id := fallbackId
        status := .queued
        plan :=
          { prompt_length := prompt.length
            modalities := ["audio"]
            render_video := false
            dry_run := true }
        artifacts := [] }
  { id := base.job_id
    status := base.status
    plan := base.plan
    artifacts := base.artifacts
    progress := if base.status = .completed then 100 else 10
    createdAt := now
    updatedAt := now
    prompt := prompt }

/-- The optimistic-submission step of `handlePrompt` in `frontend/main.js`:
`upsertJob(toJobStatus(null, tempId, text))`. -/
def submitPlaceholder (r : Registry) (tempId prompt : String) (now : Nat) : Registry :=
  upsertJob r (toJobStatus none tempId prompt now)

/-- The post-response step of `handlePrompt` in `frontend/main.js`:
```
const job = toJobStatus(result, tempId, text);
job.progress = result?.status === 'completed' ? 100 : job.progress;
upsertJob(job);
```
-/
def applyResult (r : Registry) (result : Option SynthesisResponse)
    (tempId prompt : String) (now : Nat) : Registry :=
  let job := toJobStatus result tempId prompt now
  let job :=
    match result with
    | some d => if d.status = .completed then { job with progress := 100 } else job
    | none => job
  upsertJob r job

/-! ## StreamFrameDecoder (`frontend/src/api.ts`, `parseSseChunk`) -/

/-- Prepend a character to the head piece of a split result (the behaviour of
a left-to-right `split` scan on a non-separator character). -/
def consHead (c : Char) : List (List Char) → List (List Char)
  | [] => [[c]]
  | p :: ps => (c :: p) :: ps

/-- JS `buffer.split('\n\n')`: non-overlapping, left-to-right scan for the
two-character separator; always returns at least one (possibly empty) piece. -/
def splitNN : List Char → List (List Char)
  | [] => [[]]
  | [c] => [[c]]
  | c :: d :: rest =>
    if c = '\n' ∧ d = '\n' then [] :: splitNN rest
    else consHead c (splitNN (d :: rest))

/-- JS `message.split('\n')` (single-character separator). -/
def splitLF : List Char → List (List Char)
  | [] => [[]]
  | c :: rest => if c = '\n' then [] :: splitLF rest else consHead c (splitLF rest)

/-- JS whitespace stripped by `String.prototype.trim`, restricted to the
characters that can occur here. -/
def isJsWs (c : Char) : Bool :=
  c = ' ' || c = '\t' || c = '\n' || c = '\r' || c = '\x0b' || c = '\x0c'

/-- JS `l.trim()`. -/
def trimChars (l : List Char) : List Char :=
  ((l.dropWhile isJsWs).reverse.dropWhile isJsWs).reverse

/-- The SSE event-data marker `'data:'`. -/
def dataMarker : List Char := ['d', 'a', 't', 'a', ':']

/-- JS `line.replace(pat, '')` with a plain-string pattern: remove the first
occurrence of `pat`, leave the line unchanged when `pat` does not occur. -/
def removeFirst (pat : List Char) : List Char → List Char
  | [] => []
  | c :: rest =>
    if pat.isPrefixOf (c :: rest) then (c :: rest).drop pat.length
    else c :: removeFirst pat rest

/-- The per-message body of the loop in `parseSseChunk`
(`frontend/src/api.ts`):
```
const line = message.split('\n').map((l) => l.trim()).find((l) => l.startsWith('data:'));
if (!line) continue;
const payload = line.replace('data:', '').trim();
```
Returns the payload text, or `none` when the message has no data line. -/
def extractPayload (message : List Char) : Option (List Char) :=
  (((splitLF message).map trimChars).find? (fun l => dataMarker.isPrefixOf l)).map
    (fun line => trimChars (removeFirst dataMarker line))

/-- The fields of a parsed JSON value that `handlePrompt`'s `onEvent` callback
reads: `nonObject` covers strings, numbers, booleans, arrays and `null`
(anything failing the `typeof data === 'object'` / truthiness guard or lacking
the fields); `object` projects `job_id`, `progress` and `status`. -/
inductive JsValue where
  | object (job_id : Option String) (progress : Option Int) (status : Option JobStatus)
  | nonObject
deriving DecidableEq, Repr

/-- What `parseSseChunk` hands to `onEvent` for one message:
`JSON.parse(payload)` on success, the raw payload text when `JSON.parse`
throws. -/
inductive SseEvent where
  | parsed (v : JsValue)
  | rawText (payload : List Char)
deriving DecidableEq, Repr

/-- The `try { onEvent?.(JSON.parse(payload)) } catch { onEvent?.(payload) }`
step; `jp` models `JSON.parse`, `none` meaning it throws. -/
def emitEvent (jp : List Char → Option JsValue) (payload : List Char) : SseEvent :=
  match jp payload with
  | some v => .parsed v
  | none => .rawText payload

/-- `parseSseChunk(buffer, onEvent)` from `frontend/src/api.ts`: split the
buffer on blank lines, keep the final (possibly incomplete) piece as the new
buffer, and emit one event per completed message that carries a data line.
Returns `(remainder, events emitted in order)`. -/
def parseSseChunk (jp : List Char → Option JsValue) (buffer : List Char) :
    List Char × List SseEvent :=
  let messages := splitNN buffer
  (messages.getLastD [],
    (messages.dropLast).filterMap (fun m => (extractPayload m).map (emitEvent jp)))

/-- The streaming read loop of `createSynthesisJob`
(`frontend/src/api.ts`): each chunk is appended to the carried buffer and fed
through `parseSseChunk`; collects every event handed to `onEvent`, in order.
The final remainder is dropped when the stream ends, as in the source. -/
def streamEvents (jp : List Char → Option JsValue) :
    List (List Char) → List Char → List SseEvent
  | [], _ => []
  | c :: cs, buffer =>
    let step := parseSseChunk jp (buffer ++ c)
    step.2 ++ streamEvents jp cs step.1

/-! ## JobSubmitter (`frontend/src/api.ts`, `createSynthesisJob`, with the
`onEvent` sink installed by `handlePrompt` in `frontend/main.js`) -/

/-- `handlePrompt`'s `onEvent` callback:
```
if (!data || typeof data !== 'object') return;
const event = data;
if (event.job_id && jobs.has(event.job_id)) {
  updateJobProgress(event.job_id, event.progress ?? 50, event.status);
}
```
-/
def onEventSink (now : Nat) (r : Registry) (e : SseEvent) : Registry :=
  match e with
  | .rawText _ => r
  | .parsed .nonObject => r
  | .parsed (.object job_id progress status) =>
    match job_id with
    | none => r
    | some jid =>
      if jid ≠ "" ∧ Registry.hasJob r jid = true then
        updateJobProgress now r jid (progress.getD 50) status
      else r

/-- One result of `reader.read()` on the response body: a data chunk, normal
completion (`done`), or rejection because the caller's `AbortSignal` fired. -/
inductive ReadStep where
  | chunk (s : List Char)
  | done
  | aborted
deriving DecidableEq, Repr

/-- The `while (true)` read loop of `createSynthesisJob`, with the decoded
events folded into the registry through `onEventSink`.  Returns the registry
together with `true` when the loop exited by the abort rejection (in the
source the rejection propagates as an exception; the loop itself performs no
registry write on that path) and `false` on normal completion. -/
def consumeStream (jp : List Char → Option JsValue) (now : Nat) :
    List ReadStep → List Char → Registry → Registry × Bool
  | [], _, r => (r, false)
  | .done :: _, _, r => (r, false)
  | .aborted :: _, _, r => (r, true)
  | .chunk s :: rest, buffer, r =>
    let step := parseSseChunk jp (buffer ++ s)
    consumeStream jp now rest step.1 (step.2.foldl (onEventSink now) r)

/-- Whether `contentType.includes('text/event-stream')`. -/
def containsSub (pat : List Char) (s : List Char) : Bool :=
  s.tails.any (fun t => pat.isPrefixOf t)

/-- `'text/event-stream'`. -/
def eventStreamMarker : List Char := "text/event-stream".data

/-- The response as `createSynthesisJob` observes it.  `contentType` is
`response.headers.get('content-type')` (JS `null` when absent), `reads` the
successive `reader.read()` results of the body stream, `bodyJson` the parsed
JSON document of the buffered path (`none` models a body on which
`response.json()` rejects, yielding the `{}` fallback object), `errorDetail`
the server's `detail` field. -/
structure HttpResponse where
  contentType : Option String
  hasBody : Bool
  ok : Bool
  reads : List ReadStep
  bodyJson : Option SynthesisResponse
  errorDetail : Option String

/-- `createSynthesisJob` from `frontend/src/api.ts` (after the `fetch`
resolved), with `handlePrompt`'s `onEvent` sink: when the declared content
type includes `text/event-stream` and the response has a body, drive the
stream loop and return `null`; otherwise parse the body as one JSON document
and throw on a non-success status.  `Except.error` models a thrown
exception. -/
def createSynthesisJob (jp : List Char → Option JsValue) (now : Nat)
    (resp : HttpResponse) (r : Registry) :
    Except String (Option SynthesisResponse) × Registry :=
  if containsSub eventStreamMarker (resp.contentType.getD "").data ∧ resp.hasBody = true then
    let step := consumeStream jp now resp.reads [] r
    if step.2 then (.error "aborted", step.1) else (.ok none, step.1)
  else
    if resp.ok = false then
      (.error ((resp.errorDetail.getD "Request failed")), r)
    else
      (.ok resp.bodyJson, r)

/-! ## Concrete inputs used by witnesses and counterexamples -/

/-- A plan value used by the concrete scenarios below. -/
def examplePlan : SynthesisPlan :=
  { prompt_length := 5, modalities := ["audio"], render_video := false, dry_run := false }

/-- A job already in the terminal state `completed`, with an artifact. -/
def exCompletedJob : JobState :=
  { id := "j1", status := .completed, plan := examplePlan,
    artifacts := [("audio", "/a.wav")], progress := 100,
    createdAt := 1, updatedAt := 1, prompt := "hello" }

/-- A running job at progress 80. -/
def exRunningJob : JobState :=
  { id := "j2", status := .running, plan := examplePlan, artifacts := [],
    progress := 80, createdAt := 1, updatedAt := 1, prompt := "hello" }

/-- A buffered server response carrying a server-issued job id. -/
def exServerResp : SynthesisResponse :=
  { job_id := "srv-1", status := .completed, plan := examplePlan,
    artifacts := [("audio", "/a.wav")] }

/-- A fully valid payload. -/
def exOkPayload : Payload :=
  { text := "hello", resolution := [some 1920, some 1080], fps := 30,
    textTemp := 0.7, waveformTemp := 0.7 }

/-- A payload whose resolution component failed to parse (`Number` gave `NaN`)
but whose other fields are all valid. -/
def exBadResPayload : Payload :=
  { text := "hello", resolution := [none], fps := 30,
    textTemp := 0.7, waveformTemp := 0.7 }

/-- A `JSON.parse` model under which every payload throws. -/
def neverJson : List Char → Option JsValue := fun _ => none

/-- A `JSON.parse` model mapping the payload text `evt1` to a progress event
for job `j2` and throwing elsewhere. -/
def exJson : List Char → Option JsValue := fun p =>
  if p = "evt1".data then some (.object (some "j2") (some 40) none) else none

/-- Registry scenario for the terminal-status claims. -/
def c1r0 : Registry := [("j1", exCompletedJob)]

/-- Registry scenario for the progress claims. -/
def c3r0 : Registry := [("j2", exRunningJob)]

/-- The registry after the optimistic submission under the placeholder id
`job-1` followed by the buffered response carrying the server id `srv-1`. -/
def c4Final : Registry :=
  applyResult (submitPlaceholder [] "job-1" "hello" 100) (some exServerResp) "job-1" "hello" 200

/-- A streaming response with a non-success HTTP status (`ok := false`). -/
def exStreamResp : HttpResponse :=
  { contentType := some "text/event-stream; charset=utf-8"
    hasBody := true
    ok := false
    reads := [.chunk ("data: evt1\n\n".data), .done]
    bodyJson := none
    errorDetail := none }

/-! ## Registry lemmas -/

theorem hasJob_eq_find_isSome (r : Registry) (id : String) :
    Registry.hasJob r id = (List.find? (fun p => decide (p.1 = id)) r).isSome := by
  unfold Registry.hasJob Registry.getJob
  cases List.find? (fun p => decide (p.1 = id)) r <;> rfl

theorem find_key_map_update (r : Registry) (id : String) (j : JobState)
    (h : (List.find? (fun p => decide (p.1 = id)) r).isSome = true) :
    List.find? (fun p => decide (p.1 = id))
      (List.map (fun p => if p.1 = id then (id, j) else p) r) = some (id, j) := by
  induction r with
  | nil => simp at h
  | cons p rest ih =>
    by_cases hp : p.1 = id
    · simp [hp]
    · rw [List.map_cons, if_neg hp,
        List.find?_cons_of_neg _ (by simpa using hp)]
      rw [List.find?_cons_of_neg _ (by simpa using hp)] at h
      exact ih h

theorem find_key_map_update_other (r : Registry) (id id' : String) (j : JobState)
    (hne : id' ≠ id) :
    List.find? (fun p => decide (p.1 = id'))
      (List.map (fun p => if p.1 = id then (id, j) else p) r) =
    List.find? (fun p => decide (p.1 = id')) r := by
  induction r with
  | nil => simp
  | cons p rest ih =>
    by_cases hp : p.1 = id
    · rw [List.map_cons, if_pos hp,
        List.find?_cons_of_neg _ (by simpa using fun h => hne h.symm),
        List.find?_cons_of_neg _ (by simp [hp]; exact fun h => hne h.symm)]
      exact ih
    · by_cases hq : p.1 = id'
      · rw [List.map_cons, if_neg hp, List.find?_cons_of_pos _ (by simpa using hq),
          List.find?_cons_of_pos _ (by simpa using hq)]
      · rw [List.map_cons, if_neg hp, List.find?_cons_of_neg _ (by simpa using hq),
          List.find?_cons_of_neg _ (by simpa using hq)]
        exact ih

theorem getJob_setJob_self (r : Registry) (id : String) (j : JobState) :
    Registry.getJob (Registry.setJob r id j) id = some j := by
  unfold Registry.setJob
  by_cases h : Registry.hasJob r id
  · rw [if_pos h]
    unfold Registry.getJob
    rw [find_key_map_update r id j (by rw [hasJob_eq_find_isSome] at h; exact h)]
    rfl
  · rw [if_neg h]
    unfold Registry.getJob
    rw [List.find?_append]
    have hnone : List.find? (fun p => decide (p.1 = id)) r = none := by
      rw [hasJob_eq_find_isSome] at h
      exact Option.not_isSome_iff_eq_none.mp (by simpa using h)
    rw [hnone]
    simp

theorem getJob_setJob_other (r : Registry) (id id' : String) (j : JobState)
    (hne : id' ≠ id) :
    Registry.getJob (Registry.setJob r id j) id' = Registry.getJob r id' := by
  unfold Registry.setJob
  by_cases h : Registry.hasJob r id
  · rw [if_pos h]
    unfold Registry.getJob
    rw [find_key_map_update_other r id id' j hne]
  · rw [if_neg h]
    unfold Registry.getJob
    rw [List.find?_append]
    have : List.find? (fun p => decide (p.1 = id')) [(id, j)] = none := by
      simp [List.find?, Ne.symm hne]
    rw [this]
    simp

/-! ## RequestValidator claims -/

/-- C8: for every input whose prompt is non-empty, whose two temperatures each
lie in [0.0, 1.5], and whose fps is greater than 0, `validate` returns an
empty list of errors. -/
theorem validate_no_errors (p : Payload) (hp : p.text ≠ "")
    (ht1 : 0 ≤ p.textTemp) (ht2 : p.textTemp ≤ 1.5)
    (hw1 : 0 ≤ p.waveformTemp) (hw2 : p.waveformTemp ≤ 1.5)
    (hf : 0 < p.fps) : validate p = [] := by
  have h2 : ¬(p.textTemp < 0 ∨ p.textTemp > 1.5) := by push_neg; exact ⟨ht1, ht2⟩
  have h3 : ¬(p.waveformTemp < 0 ∨ p.waveformTemp > 1.5) := by push_neg; exact ⟨hw1, hw2⟩
  have h4 : ¬(p.fps ≤ 0) := not_le.mpr hf
  simp [validate, hp, h2, h3, h4]

theorem validate_no_errors_witness :
    exOkPayload.text ≠ "" ∧ 0 ≤ exOkPayload.textTemp ∧ exOkPayload.textTemp ≤ 1.5 ∧
      0 ≤ exOkPayload.waveformTemp ∧ exOkPayload.waveformTemp ≤ 1.5 ∧
      0 < exOkPayload.fps ∧ validate exOkPayload = [] :=
  ⟨by decide, by norm_num [exOkPayload], by norm_num [exOkPayload],
   by norm_num [exOkPayload], by norm_num [exOkPayload], by norm_num [exOkPayload],
   validate_no_errors exOkPayload (by decide) (by norm_num [exOkPayload])
     (by norm_num [exOkPayload]) (by norm_num [exOkPayload]) (by norm_num [exOkPayload])
     (by norm_num [exOkPayload])⟩

/-- C9 counterexample: a payload whose resolution does not parse into two
positive integers but whose other fields are valid receives an empty error
list, so validation does not enforce the resolution rule. -/
theorem validate_ignores_resolution_counterexample :
    resolutionParsesTwoPos exBadResPayload.resolution = false ∧
    validate exBadResPayload = [] := by
  refine ⟨by decide, ?_⟩
  norm_num [validate, exBadResPayload]
  decide

/-- C9 (amended): the validator never examines the resolution field — its
result is unchanged under any resolution value, so an input whose resolution
does not parse into two positive integers yields no resolution error. -/
theorem validate_independent_of_resolution (p : Payload) (res : List (Option Int)) :
    validate { p with resolution := res } = validate p := rfl

/-! ## JobRegistry merge claims -/

/-- C1 (amended): `updateJobProgress` has no terminal-state guard — when a
status is supplied it overwrites the stored status unconditionally, even when
the stored status is terminal and the incoming one is an earlier non-terminal
status; the stored artifacts (and the rest of the record) are left
unchanged. -/
theorem updateJobProgress_result (now : Nat) (r : Registry) (id : String)
    (prog : Int) (s : JobStatus) (current : JobState)
    (hget : Registry.getJob r id = some current) (hid : current.id = id) :
    Registry.getJob (updateJobProgress now r id prog (some s)) id =
      some { current with progress := min prog 100, updatedAt := now, status := s } := by
  obtain ⟨cid, cst, cplan, cart, cprog, ccr, cup, cpr⟩ := current
  simp only at hid
  subst hid
  simp only [updateJobProgress, hget, upsertJob]
  exact getJob_setJob_self r cid _

theorem updateJobProgress_result_witness :
    Registry.getJob c1r0 "j1" = some exCompletedJob ∧ exCompletedJob.id = "j1" ∧
    Registry.getJob (updateJobProgress 2 c1r0 "j1" 50 (some .running)) "j1" =
      some { exCompletedJob with progress := min 50 100, updatedAt := 2, status := .running } :=
  ⟨by decide, by decide,
   updateJobProgress_result 2 c1r0 "j1" 50 .running exCompletedJob (by decide) (by decide)⟩

/-- C1 counterexample: job `j1` is stored `completed`, an update carrying the
earlier non-terminal status `running` arrives, and the stored status changes
to `running`. -/
theorem terminal_status_overwritten_counterexample :
    (Registry.getJob c1r0 "j1").map JobState.status = some .completed ∧
    (Registry.getJob (updateJobProgress 2 c1r0 "j1" 50 (some .running)) "j1").map
        JobState.status = some .running := by
  decide

/-- C3 (amended): `updateJobProgress` always overwrites the stored progress
with `min(incoming, 100)`, regardless of the prior value and of the incoming
status — progress can decrease, and a terminal status does not force it
to 100. -/
theorem updateJobProgress_progress_result (now : Nat) (r : Registry) (id : String)
    (prog : Int) (st : Option JobStatus) (current : JobState)
    (hget : Registry.getJob r id = some current) (hid : current.id = id) :
    (Registry.getJob (updateJobProgress now r id prog st) id).map JobState.progress =
      some (min prog 100) := by
  obtain ⟨cid, cst, cplan, cart, cprog, ccr, cup, cpr⟩ := current
  simp only at hid
  subst hid
  cases st with
  | none =>
    simp only [updateJobProgress, hget, upsertJob]
    rw [getJob_setJob_self]
    rfl
  | some s =>
    simp only [updateJobProgress, hget, upsertJob]
    rw [getJob_setJob_self]
    rfl

theorem updateJobProgress_progress_result_witness :
    Registry.getJob c3r0 "j2" = some exRunningJob ∧ exRunningJob.id = "j2" ∧
    (Registry.getJob (updateJobProgress 3 c3r0 "j2" 40 none) "j2").map
        JobState.progress = some (min 40 100) :=
  ⟨by decide, by decide,
   updateJobProgress_progress_result 3 c3r0 "j2" 40 none exRunningJob (by decide) (by decide)⟩

/-- C3 counterexample: job `j2` is stored at progress 80; an update with
progress 40 lowers the stored progress to 40, and an update carrying the
terminal status `completed` with progress 40 stores 40, not 100. -/
theorem progress_decreases_counterexample :
    (Registry.getJob c3r0 "j2").map JobState.progress = some 80 ∧
    (Registry.getJob (updateJobProgress 2 c3r0 "j2" 40 none) "j2").map
        JobState.progress = some 40 ∧
    (Registry.getJob (updateJobProgress 2 c3r0 "j2" 40 (some .completed)) "j2").map
        JobState.progress = some 40 := by
  decide

/-- C5 (amended): an update for a job id with no record in the registry is
discarded — `updateJobProgress` returns the registry unchanged and no default
record is created. -/
theorem updateJobProgress_unknown_id_noop (now : Nat) (r : Registry) (id : String)
    (prog : Int) (st : Option JobStatus) (hget : Registry.getJob r id = none) :
    updateJobProgress now r id prog st = r := by
  simp only [updateJobProgress, hget]

theorem updateJobProgress_unknown_id_noop_witness :
    Registry.getJob [] "j9" = none ∧ updateJobProgress 1 [] "j9" 50 (some .running) = [] :=
  ⟨by decide, updateJobProgress_unknown_id_noop 1 [] "j9" 50 (some .running) (by decide)⟩

/-- C5 counterexample: an event for the unknown id `j9` does not create a
record with safe defaults — the registry stays empty and the event is
discarded. -/
theorem unknown_id_event_discarded_counterexample :
    updateJobProgress 1 [] "j9" 50 (some .queued) = ([] : Registry) ∧
    Registry.getJob (updateJobProgress 1 [] "j9" 50 (some .queued)) "j9" = none := by
  decide

/-- `applyResult` on a non-null response builds the upserted record wholly
from the response and the merge time: only `prompt` survives from the
submission context, and the record key is the server-issued `job_id`. -/
theorem applyResult_eq_upsert (r : Registry) (resp : SynthesisResponse)
    (tempId prompt : String) (now : Nat) :
    applyResult r (some resp) tempId prompt now =
      upsertJob r
        { id := resp.job_id, status := resp.status, plan := resp.plan,
          artifacts := resp.artifacts,
          progress := if resp.status = .completed then 100 else 10,
          createdAt := now, updatedAt := now, prompt := prompt } := by
  by_cases hc : resp.status = .completed
  · simp [applyResult, toJobStatus, hc]
  · simp [applyResult, toJobStatus, hc]

/-- C4 (amended): when the buffered response reveals a server-issued job id
different from the placeholder id, `handlePrompt` inserts a fresh record under
the server id — with `createdAt`/`updatedAt` set to the merge time and only
the prompt preserved — while the placeholder record is left in the registry
untouched; the two records coexist and no rekey takes place. -/
theorem applyResult_no_rekey (r : Registry) (resp : SynthesisResponse)
    (tempId prompt : String) (now : Nat) (hne : resp.job_id ≠ tempId) :
    Registry.getJob (applyResult r (some resp) tempId prompt now) tempId =
      Registry.getJob r tempId ∧
    Registry.getJob (applyResult r (some resp) tempId prompt now) resp.job_id =
      some { id := resp.job_id, status := resp.status, plan := resp.plan,
             artifacts := resp.artifacts,
             progress := if resp.status = .completed then 100 else 10,
             createdAt := now, updatedAt := now, prompt := prompt } := by
  rw [applyResult_eq_upsert]
  unfold upsertJob
  constructor
  · exact getJob_setJob_other r resp.job_id tempId _ (Ne.symm hne)
  · exact getJob_setJob_self r resp.job_id _

theorem applyResult_no_rekey_witness :
    exServerResp.job_id ≠ "job-1" ∧
    (Registry.getJob c4Final "job-1" =
        Registry.getJob (submitPlaceholder [] "job-1" "hello" 100) "job-1" ∧
      Registry.getJob c4Final exServerResp.job_id =
        some { id := exServerResp.job_id, status := exServerResp.status,
               plan := exServerResp.plan, artifacts := exServerResp.artifacts,
               progress := if exServerResp.status = .completed then 100 else 10,
               createdAt := 200, updatedAt := 200, prompt := "hello" }) :=
  ⟨by decide,
   applyResult_no_rekey (submitPlaceholder [] "job-1" "hello" 100) exServerResp
     "job-1" "hello" 200 (by decide)⟩

/-- C4 counterexample: after the optimistic submission under `job-1` and a
response carrying the server id `srv-1`, the registry holds records under
both ids at once, and the server-id record's `createdAt` is the merge time
(200), not the placeholder's original creation time (100). -/
theorem placeholder_coexists_counterexample :
    Registry.hasJob c4Final "job-1" = true ∧ Registry.hasJob c4Final "srv-1" = true ∧
    (Registry.getJob c4Final "srv-1").map JobState.createdAt = some 200 ∧
    (Registry.getJob (submitPlaceholder [] "job-1" "hello" 100) "job-1").map
        JobState.createdAt = some 100 := by
  decide

/-! ## Stream decoder lemmas -/

theorem splitNN_cons₂ (c d : Char) (rest : List Char) :
    splitNN (c :: d :: rest) =
      if c = '\n' ∧ d = '\n' then [] :: splitNN rest
      else consHead c (splitNN (d :: rest)) := rfl

theorem twoStepInduction {P : List Char → Prop} (h0 : P []) (h1 : ∀ c, P [c])
    (h2 : ∀ c d rest, P rest → P (d :: rest) → P (c :: d :: rest)) : ∀ l, P l
  | [] => h0
  | [c] => h1 c
  | c :: d :: rest =>
    h2 c d rest (twoStepInduction h0 h1 h2 rest) (twoStepInduction h0 h1 h2 (d :: rest))

theorem splitNN_ne_nil (l : List Char) : splitNN l ≠ [] := by
  induction l using twoStepInduction with
  | h0 => simp [splitNN]
  | h1 c => simp [splitNN]
  | h2 c d rest ih ih2 =>
    rw [splitNN_cons₂]
    split
    · simp
    · cases hT : splitNN (d :: rest) with
      | nil => exact absurd hT ih2
      | cons t0 T => simp [consHead]

theorem splitNN_eq_singleton (l p : List Char) (h : splitNN l = [p]) : p = l := by
  induction l using twoStepInduction generalizing p with
  | h0 => simp [splitNN] at h; exact h
  | h1 c => simp [splitNN] at h; exact h.symm
  | h2 c d rest ih ih2 =>
    rw [splitNN_cons₂] at h
    split at h
    · exact absurd (List.cons.injEq _ _ _ _ ▸ h) (by simp [splitNN_ne_nil rest])
    · cases hT : splitNN (d :: rest) with
      | nil => exact absurd hT (splitNN_ne_nil _)
      | cons t0 T =>
        rw [hT] at h
        simp [consHead] at h
        obtain ⟨hp, hT'⟩ := h
        subst hT'
        rw [hT] at ih2
        have := ih2 t0 rfl
        subst this
        exact hp.symm

/-- The key streaming property of the JS `split('\n\n')` scan: splitting
`xs ++ ys` yields the completed pieces of `xs` followed by the split of the
retained final fragment of `xs` extended with `ys`.  This is exactly the
re-scan that `parseSseChunk` performs when it carries the remainder to the
next read. -/
theorem splitNN_append (xs ys : List Char) :
    splitNN (xs ++ ys) =
      (splitNN xs).dropLast ++ splitNN ((splitNN xs).getLastD [] ++ ys) := by
  induction xs using twoStepInduction with
  | h0 => simp [splitNN]
  | h1 c => simp [splitNN]
  | h2 c d rest ih ih2 =>
    by_cases h : c = '\n' ∧ d = '\n'
    · have lhs : splitNN ((c :: d :: rest) ++ ys) = [] :: splitNN (rest ++ ys) := by
        rw [List.cons_append, List.cons_append, splitNN_cons₂, if_pos h]
      have rhs1 : splitNN (c :: d :: rest) = [] :: splitNN rest := by
        rw [splitNN_cons₂, if_pos h]
      rw [lhs, rhs1, ih]
      obtain ⟨s0, S', hS⟩ := List.exists_cons_of_ne_nil (splitNN_ne_nil rest)
      rw [hS]
      simp [List.getLastD_cons]
    · have lhs : splitNN ((c :: d :: rest) ++ ys) = consHead c (splitNN ((d :: rest) ++ ys)) := by
        rw [List.cons_append, List.cons_append, splitNN_cons₂, if_neg h]
      have rhs1 : splitNN (c :: d :: rest) = consHead c (splitNN (d :: rest)) := by
        rw [splitNN_cons₂, if_neg h]
      rw [lhs, ih2, rhs1]
      cases hT : splitNN (d :: rest) with
      | nil => exact absurd hT (splitNN_ne_nil _)
      | cons t0 T =>
        cases T with
        | nil =>
          have ht0 : t0 = d :: rest := splitNN_eq_singleton _ _ hT
          subst ht0
          simp only [consHead, List.dropLast_single, List.getLastD_cons, List.getLastD_nil,
            List.nil_append, List.cons_append]
          rw [splitNN_cons₂, if_neg h]
          rfl
        | cons t1 T' =>
          simp only [consHead, List.dropLast_cons₂, List.getLastD_cons, List.cons_append]

theorem getLastD_append_of_ne_nil (A B : List (List Char)) (h : B ≠ []) :
    (A ++ B).getLastD [] = B.getLastD [] := by
  cases hl : B.getLast? with
  | none => exact absurd (List.getLast?_eq_none_iff.mp hl) h
  | some b => simp [List.getLastD_eq_getLast?, hl]

theorem splitNN_append_dropLast (xs ys : List Char) :
    (splitNN (xs ++ ys)).dropLast =
      (splitNN xs).dropLast ++ (splitNN ((splitNN xs).getLastD [] ++ ys)).dropLast := by
  rw [splitNN_append, List.dropLast_append_of_ne_nil _ (splitNN_ne_nil _)]

theorem splitNN_append_getLastD (xs ys : List Char) :
    (splitNN (xs ++ ys)).getLastD [] =
      (splitNN ((splitNN xs).getLastD [] ++ ys)).getLastD [] := by
  rw [splitNN_append, getLastD_append_of_ne_nil _ _ (splitNN_ne_nil _)]

/-- Driving the loop over a non-empty chunk list is the same as decoding the
concatenation of the carried buffer with all chunks in one pass. -/
theorem streamEvents_eq_single_pass (jp : List Char → Option JsValue)
    (chunks : List (List Char)) (hne : chunks ≠ []) : ∀ buffer : List Char,
    streamEvents jp chunks buffer =
      ((splitNN (buffer ++ chunks.flatten)).dropLast).filterMap
        (fun m => (extractPayload m).map (emitEvent jp)) := by
  induction chunks with
  | nil => exact absurd rfl hne
  | cons c cs ih =>
    intro buffer
    cases cs with
    | nil =>
      simp [streamEvents, parseSseChunk]
    | cons c2 cs' =>
      rw [streamEvents]
      rw [ih (by simp)]
      simp only [parseSseChunk, List.flatten_cons, List.append_assoc]
      have hassoc : buffer ++ (c ++ (c2 ++ List.flatten cs')) =
          (buffer ++ c) ++ (c2 ++ List.flatten cs') := (List.append_assoc _ _ _).symm
      rw [hassoc, splitNN_append_dropLast (buffer ++ c) (c2 ++ List.flatten cs'),
        List.filterMap_append]

/-- C2: chunk-boundary invariance — feeding the chunks of any partition of
the character stream one at a time through the read loop (streaming text
decode plus `parseSseChunk` carrying the remainder buffer) emits exactly the
same ordered sequence of events to the sink as feeding the whole stream as a
single chunk. -/
theorem streamEvents_chunk_invariance (jp : List Char → Option JsValue)
    (chunks : List (List Char)) :
    streamEvents jp chunks [] = streamEvents jp [chunks.flatten] [] := by
  cases chunks with
  | nil => simp [streamEvents, parseSseChunk, splitNN]
  | cons c cs =>
    rw [streamEvents_eq_single_pass jp (c :: cs) (by simp) [],
      streamEvents_eq_single_pass jp [(c :: cs).flatten] (by simp) []]
    simp

/-- The event list of one `parseSseChunk` call is the payload list mapped
through the `JSON.parse`-or-raw step. -/
theorem parseSseChunk_events_eq_map (jp : List Char → Option JsValue) (buffer : List Char) :
    (parseSseChunk jp buffer).2 =
      ((splitNN buffer).dropLast.filterMap extractPayload).map (emitEvent jp) := by
  simp [parseSseChunk, List.map_filterMap]

/-- C7: a completed message whose data payload fails JSON decoding is not
discarded — the raw payload text is passed through unchanged to the event
sink, and every other completed message still yields its own event (the
number of emitted events equals the number of extracted payloads). -/
theorem parseSseChunk_raw_passthrough (jp : List Char → Option JsValue)
    (buffer p : List Char) (i : Nat)
    (hp : ((splitNN buffer).dropLast.filterMap extractPayload)[i]? = some p)
    (hfail : jp p = none) :
    (parseSseChunk jp buffer).2[i]? = some (SseEvent.rawText p) ∧
    (parseSseChunk jp buffer).2.length =
      ((splitNN buffer).dropLast.filterMap extractPayload).length := by
  constructor
  · rw [parseSseChunk_events_eq_map, List.getElem?_map, hp]
    simp [emitEvent, hfail]
  · rw [parseSseChunk_events_eq_map, List.length_map]

theorem parseSseChunk_raw_passthrough_witness :
    ((splitNN ("data: nope\n\ndata: two\n\n".data)).dropLast.filterMap extractPayload)[0]? =
      some ("nope".data) ∧ neverJson ("nope".data) = none ∧
    ((parseSseChunk neverJson ("data: nope\n\ndata: two\n\n".data)).2[0]? =
        some (SseEvent.rawText ("nope".data)) ∧
      (parseSseChunk neverJson ("data: nope\n\ndata: two\n\n".data)).2.length =
        ((splitNN ("data: nope\n\ndata: two\n\n".data)).dropLast.filterMap
          extractPayload).length) :=
  ⟨by decide, rfl,
   parseSseChunk_raw_passthrough neverJson ("data: nope\n\ndata: two\n\n".data)
     ("nope".data) 0 (by decide) rfl⟩

/-! ## Cancellation and response-dispatch claims -/

/-- C6: when the cancellation signal fires mid-stream (the pending
`reader.read()` rejects), the loop stops — none of the later read results
contribute events — and the registry is exactly the state reached after the
chunks read before the abort; the abort itself merges nothing, so it cannot
set any job's status to `failed`. -/
theorem consumeStream_abort (jp : List Char → Option JsValue) (now : Nat)
    (pre post : List ReadStep) (buffer : List Char) (r : Registry)
    (hpre : ∀ s ∈ pre, ∃ cdata, s = ReadStep.chunk cdata) :
    consumeStream jp now (pre ++ ReadStep.aborted :: post) buffer r =
      ((consumeStream jp now pre buffer r).1, true) := by
  induction pre generalizing buffer r with
  | nil => simp [consumeStream]
  | cons s pre' ih =>
    obtain ⟨cdata, rfl⟩ := hpre s (List.mem_cons_self _ _)
    rw [List.cons_append]
    simp only [consumeStream]
    exact ih _ _ (fun s hs => hpre s (List.mem_cons_of_mem _ hs))

theorem consumeStream_abort_witness :
    (∀ s ∈ [ReadStep.chunk ("data: evt1\n\n".data)], ∃ cdata, s = ReadStep.chunk cdata) ∧
    consumeStream exJson 9
        ([ReadStep.chunk ("data: evt1\n\n".data)] ++
          ReadStep.aborted :: [ReadStep.chunk ("data: evt2\n\n".data)]) [] c3r0 =
      ((consumeStream exJson 9 [ReadStep.chunk ("data: evt1\n\n".data)] [] c3r0).1, true) :=
  ⟨fun s hs => ⟨_, List.mem_singleton.mp hs⟩,
   consumeStream_abort exJson 9 [ReadStep.chunk ("data: evt1\n\n".data)]
     [ReadStep.chunk ("data: evt2\n\n".data)] [] c3r0
     (fun s hs => ⟨_, List.mem_singleton.mp hs⟩)⟩

/-- A read trace with no abort rejection finishes the loop normally. -/
theorem consumeStream_no_abort (jp : List Char → Option JsValue) (now : Nat)
    (reads : List ReadStep) (hna : ∀ s ∈ reads, s ≠ ReadStep.aborted) :
    ∀ (buffer : List Char) (r : Registry),
    (consumeStream jp now reads buffer r).2 = false := by
  induction reads with
  | nil => intro buffer r; rfl
  | cons s rest ih =>
    intro buffer r
    cases s with
    | chunk cdata =>
      simp only [consumeStream]
      exact ih (fun s hs => hna s (List.mem_cons_of_mem _ hs)) _ _
    | done => rfl
    | aborted => exact absurd rfl (hna _ (List.mem_cons_self _ _))

/-- C10: on a response whose declared content type includes
`text/event-stream` and which has a body, `createSynthesisJob` drives the
stream to completion and returns `null` — the response's `ok` flag is never
consulted on this path, so a non-success HTTP status does not make it
throw; the registry is whatever the stream loop produced. -/
theorem createSynthesisJob_stream_returns_null (jp : List Char → Option JsValue)
    (now : Nat) (resp : HttpResponse) (r : Registry)
    (hct : containsSub eventStreamMarker (resp.contentType.getD "").data = true)
    (hbody : resp.hasBody = true)
    (hna : ∀ s ∈ resp.reads, s ≠ ReadStep.aborted) :
    (createSynthesisJob jp now resp r).1 = Except.ok none ∧
    (createSynthesisJob jp now resp r).2 = (consumeStream jp now resp.reads [] r).1 := by
  have h2 := consumeStream_no_abort jp now resp.reads hna [] r
  constructor <;> simp [createSynthesisJob, hct, hbody, h2]

theorem createSynthesisJob_stream_returns_null_witness :
    containsSub eventStreamMarker (exStreamResp.contentType.getD "").data = true ∧
    exStreamResp.hasBody = true ∧
    (∀ s ∈ exStreamResp.reads, s ≠ ReadStep.aborted) ∧
    ((createSynthesisJob exJson 9 exStreamResp c3r0).1 = Except.ok none ∧
      (createSynthesisJob exJson 9 exStreamResp c3r0).2 =
        (consumeStream exJson 9 exStreamResp.reads [] c3r0).1) :=
  ⟨by decide, rfl, by decide,
   createSynthesisJob_stream_returns_null exJson 9 exStreamResp c3r0
     (by decide) rfl (by decide)⟩
